import Mathlib

/-!
Verification development for the ouroboros orchestration engine.

Shallow embedding of the engine's core modules:
- `scripts-src/lib/yaml.ts` (manifest store: progress ledger + feature index)
- `scripts-src/lib/epic.ts` (feature discovery, validation, progress detection)
- `scripts-src/lib/agent/cursor.ts` (loop detector and prompt-result contract)
- `scripts-src/lib/git.ts` and the implement-epic pipeline step wrapper

Machine integers are modelled as `Nat` with explicit `% 2^32` truncation;
fallible operations return `Option`/`Except`.
-/

set_option maxRecDepth 10000

namespace Ouroboros

/-! ## MD5 (as used by `createHash("md5")` in cursor.ts `hashToolCall`) -/

/-- Truncate to 32 bits. -/
def w32 (n : Nat) : Nat := n % 4294967296

/-- 32-bit left rotation. -/
def rotl32 (x s : Nat) : Nat :=
  w32 (Nat.lor (w32 (Nat.shiftLeft x s)) (Nat.shiftRight x (32 - s)))

/-- MD5 round constants `K[i] = floor(abs(sin(i+1)) * 2^32)`. -/
def md5K : List Nat := [
  3614090360, 3905402710, 606105819, 3250441966, 4118548399, 1200080426, 2821735955, 4249261313,
  1770035416, 2336552879, 4294925233, 2304563134, 1804603682, 4254626195, 2792965006, 1236535329,
  4129170786, 3225465664, 643717713, 3921069994, 3593408605, 38016083, 3634488961, 3889429448,
  568446438, 3275163606, 4107603335, 1163531501, 2850285829, 4243563512, 1735328473, 2368359562,
  4294588738, 2272392833, 1839030562, 4259657740, 2763975236, 1272893353, 4139469664, 3200236656,
  681279174, 3936430074, 3572445317, 76029189, 3654602809, 3873151461, 530742520, 3299628645,
  4096336452, 1126891415, 2878612391, 4237533241, 1700485571, 2399980690, 4293915773, 2240044497,
  1873313359, 4264355552, 2734768916, 1309151649, 4149444226, 3174756917, 718787259, 3951481745]

/-- MD5 per-round shift amounts. -/
def md5S : List Nat := [
  7, 12, 17, 22, 7, 12, 17, 22, 7, 12, 17, 22, 7, 12, 17, 22,
  5, 9, 14, 20, 5, 9, 14, 20, 5, 9, 14, 20, 5, 9, 14, 20,
  4, 11, 16, 23, 4, 11, 16, 23, 4, 11, 16, 23, 4, 11, 16, 23,
  6, 10, 15, 21, 6, 10, 15, 21, 6, 10, 15, 21, 6, 10, 15, 21]

/-- UTF-8 encoding of a single character (Node's `hash.update(str)` default). -/
def utf8Char (c : Char) : List Nat :=
  let n := c.toNat
  if n < 128 then [n]
  else if n < 2048 then [192 + n / 64, 128 + n % 64]
  else if n < 65536 then [224 + n / 4096, 128 + n / 64 % 64, 128 + n % 64]
  else [240 + n / 262144, 128 + n / 4096 % 64, 128 + n / 64 % 64, 128 + n % 64]

/-- UTF-8 bytes of a string. -/
def utf8Bytes (s : String) : List Nat :=
  s.data.foldr (fun c acc => utf8Char c ++ acc) []

/-- Little-endian 8-byte encoding of the 64-bit bit-length field. -/
def le64 (n : Nat) : List Nat :=
  (List.range 8).map (fun i => n / 256 ^ i % 256)

/-- MD5 padding: `0x80`, zeros to 56 mod 64, then length-in-bits (LE, 64-bit). -/
def md5Pad (msg : List Nat) : List Nat :=
  msg ++ [128] ++ List.replicate ((64 + 56 - msg.length % 64 - 1) % 64) 0 ++
    le64 (msg.length * 8)

/-- Word `g` (little-endian 32-bit) of a 64-byte chunk. -/
def le32At (chunk : List Nat) (g : Nat) : Nat :=
  chunk.getD (4 * g) 0 + 256 * chunk.getD (4 * g + 1) 0 +
    65536 * chunk.getD (4 * g + 2) 0 + 16777216 * chunk.getD (4 * g + 3) 0

structure MD5State where
  a : Nat
  b : Nat
  c : Nat
  d : Nat

/-- Bitwise complement on 32 bits. -/
def not32 (x : Nat) : Nat := Nat.xor x 4294967295

/-- One MD5 round. -/
def md5Round (chunk : List Nat) (st : MD5State) (i : Nat) : MD5State :=
  let fg : Nat × Nat :=
    if i < 16 then
      (Nat.lor (Nat.land st.b st.c) (Nat.land (not32 st.b) st.d), i)
    else if i < 32 then
      (Nat.lor (Nat.land st.d st.b) (Nat.land (not32 st.d) st.c), (5 * i + 1) % 16)
    else if i < 48 then
      (Nat.xor (Nat.xor st.b st.c) st.d, (3 * i + 5) % 16)
    else
      (Nat.xor st.c (Nat.lor st.b (not32 st.d)), (7 * i) % 16)
  let f2 := w32 (fg.1 + st.a + md5K.getD i 0 + le32At chunk fg.2)
  { a := st.d, b := w32 (st.b + rotl32 f2 (md5S.getD i 0)), c := st.b, d := st.c }

/-- Process one 64-byte chunk. -/
def md5Compress (st : MD5State) (chunk : List Nat) : MD5State :=
  let r := (List.range 64).foldl (md5Round chunk) st
  { a := w32 (st.a + r.a), b := w32 (st.b + r.b),
    c := w32 (st.c + r.c), d := w32 (st.d + r.d) }

/-- Process all 64-byte chunks (fuel-driven so the kernel can evaluate it). -/
def md5Blocks : Nat → MD5State → List Nat → MD5State
  | 0, st, _ => st
  | _ + 1, st, [] => st
  | fuel + 1, st, bytes => md5Blocks fuel (md5Compress st (bytes.take 64)) (bytes.drop 64)

def hexDigit (n : Nat) : Char :=
  if n < 10 then Char.ofNat (48 + n) else Char.ofNat (87 + n)

def byteHex (b : Nat) : List Char := [hexDigit (b / 16), hexDigit (b % 16)]

/-- Little-endian hex rendering of one 32-bit word (as `digest("hex")` does). -/
def wordLEHex (w : Nat) : List Char :=
  byteHex (w % 256) ++ byteHex (w / 256 % 256) ++
    byteHex (w / 65536 % 256) ++ byteHex (w / 16777216 % 256)

/-- Full MD5 hex digest of a byte sequence. -/
def md5Hex (msg : List Nat) : String :=
  let padded := md5Pad msg
  let st := md5Blocks padded.length
    ⟨1732584193, 4023233417, 2562383102, 271733878⟩ padded
  String.mk (wordLEHex st.a ++ wordLEHex st.b ++ wordLEHex st.c ++ wordLEHex st.d)

/-! ## JSON values and `JSON.stringify`

JavaScript objects preserve key insertion order; `JSON.stringify` serializes
keys in that order with no whitespace.  Arrays and objects carry their own
list types so all recursions below are structural (kernel-evaluable). -/

mutual
inductive Json where
  | null
  | bool (b : Bool)
  | num (n : Int)
  | str (s : String)
  | arr (xs : JsonList)
  | obj (fields : JsonFields)

inductive JsonList where
  | nil
  | cons (hd : Json) (tl : JsonList)

inductive JsonFields where
  | nil
  | cons (key : String) (val : Json) (tl : JsonFields)
end

/-- First binding of a key in an object (JS object keys are unique). -/
def JsonFields.lookup (k : String) : JsonFields → Option Json
  | .nil => none
  | .cons key val tl => if key = k then some val else JsonFields.lookup k tl

/-- Escaping done by `JSON.stringify` for one character inside a string literal. -/
def escapeJsonChar (c : Char) : List Char :=
  if c = '"' then ['\\', '"']
  else if c = '\\' then ['\\', '\\']
  else if c = Char.ofNat 8 then ['\\', 'b']
  else if c = Char.ofNat 9 then ['\\', 't']
  else if c = Char.ofNat 10 then ['\\', 'n']
  else if c = Char.ofNat 12 then ['\\', 'f']
  else if c = Char.ofNat 13 then ['\\', 'r']
  else if c.toNat < 32 then ['\\', 'u', '0', '0', hexDigit (c.toNat / 16), hexDigit (c.toNat % 16)]
  else [c]

/-- A JSON string literal with quotes and escaping. -/
def quoteJsonString (s : String) : String :=
  String.mk ('"' :: s.data.foldr (fun c acc => escapeJsonChar c ++ acc) ['"'])

mutual
/-- Serialization as `JSON.stringify`: no spacing, keys in insertion order. -/
def jsonStringify : Json → String
  | .null => "null"
  | .bool true => "true"
  | .bool false => "false"
  | .num n => toString n
  | .str s => quoteJsonString s
  | .arr xs => "[" ++ jsonStringifyList xs ++ "]"
  | .obj fs => "\x7b" ++ jsonStringifyFields fs ++ "\x7d"

def jsonStringifyList : JsonList → String
  | .nil => ""
  | .cons x .nil => jsonStringify x
  | .cons x tl => jsonStringify x ++ "," ++ jsonStringifyList tl

def jsonStringifyFields : JsonFields → String
  | .nil => ""
  | .cons k v .nil => quoteJsonString k ++ ":" ++ jsonStringify v
  | .cons k v tl => quoteJsonString k ++ ":" ++ jsonStringify v ++ "," ++ jsonStringifyFields tl
end

/-! ## cursor.ts: tool-call hashing and loop detection -/

/-- cursor.ts constant `LOOP_THRESHOLD`. -/
def LOOP_THRESHOLD : Nat := 3

/-- cursor.ts constant `RECENT_CALLS_LIMIT`. -/
def RECENT_CALLS_LIMIT : Nat := 10

/-- cursor.ts `hashToolCall`: md5 of `JSON.stringify(\x7b toolName, args \x7d)`,
first 16 hex characters. -/
def hashToolCall (toolName : String) (args : Json) : String :=
  let content := jsonStringify (.obj (.cons "toolName" (.str toolName)
    (.cons "args" args .nil)))
  (md5Hex (utf8Bytes content)).take 16

/-- cursor.ts `hasRepeatedItems`: last `threshold` entries all equal
(`items.slice(-threshold)`, compared to its first element). -/
def hasRepeatedItems (items : List String) (threshold : Nat) : Bool :=
  if items.length < threshold then false
  else
    let lastN := items.drop (items.length - threshold)
    match lastN with
    | [] => true
    | x :: _ => lastN.all (fun item => item = x)

/-- cursor.ts `extractErrorFromResult`.  JS truthiness of `obj.error` on the
object branch: `null` is falsy, objects and arrays are truthy; non-object
truthy values fall through to the direct string check. -/
def extractErrorFromResult : Json → Option String
  | .obj fields =>
    match fields.lookup "error" with
    | some (.obj errFields) =>
      (match errFields.lookup "modelVisibleError" with
       | some (.str s) => some s
       | _ =>
         match errFields.lookup "error" with
         | some (.str s) => some s
         | _ => none)
    | some (.str s) => some s
    | _ => none
  | _ => none

/-- JS truthiness of the `string | null` value `errorMessage`
(`if (errorMessage)`): non-null and non-empty. -/
def errTruthy : Option String → Bool
  | some s => !s.isEmpty
  | none => false

/-- State `LoopDetectionState` of cursor.ts (the `pendingCalls` map only caches
`hashToolCall` results between the `started` and `completed` events of the
same call, so it is not tracked separately here). -/
structure LoopState where
  recentCallHashes : List String
  recentErrors : List String
deriving DecidableEq, Repr

/-- Fresh state at the start of `runPrompt`. -/
def LoopState.init : LoopState := ⟨[], []⟩

/-- Push to a bounded window: `array.push(x)` followed by
`if (array.length > RECENT_CALLS_LIMIT) array.shift()`. -/
def pushLimited (l : List String) (x : String) : List String :=
  let l2 := l ++ [x]
  if l2.length > RECENT_CALLS_LIMIT then l2.tail else l2

/-- The `tool_call`/`completed` handler of cursor.ts `runPrompt`, restricted to
the loop-detection state: on an error result it records the call hash and the
error and runs `checkAndHandleLoop`; on a success it clears `recentErrors`.
Returns the new state and whether the loop check fired (process killed). -/
def observeToolResult (st : LoopState) (toolName : String) (args result : Json) :
    LoopState × Bool :=
  let callHash := hashToolCall toolName args
  let errorMessage := extractErrorFromResult result
  if errTruthy errorMessage then
    let hashes := pushLimited st.recentCallHashes callHash
    let errs := pushLimited st.recentErrors (errorMessage.getD "")
    let abort := hasRepeatedItems hashes LOOP_THRESHOLD ||
      hasRepeatedItems errs LOOP_THRESHOLD
    (⟨hashes, errs⟩, abort)
  else
    (⟨st.recentCallHashes, []⟩, false)

/-- One observed completed tool call: name, args, result. -/
structure ToolEvent where
  toolName : String
  args : Json
  result : Json

/-- Feed a stream of completed tool calls through the detector; once the
process is killed (`loopDetected = true`) no further events are processed. -/
def runDetector : LoopState → Bool → List ToolEvent → LoopState × Bool
  | st, killed, [] => (st, killed)
  | st, killed, e :: es =>
    if killed then (st, killed)
    else
      let r := observeToolResult st e.toolName e.args e.result
      runDetector r.1 r.2 es

/-- Result of `runPrompt` (cursor.ts `PromptResult` fields used here). -/
structure PromptResult where
  success : Bool
  exitCode : Int
  loopDetected : Bool
deriving DecidableEq, Repr

/-- The `close` handler of cursor.ts `runPrompt`:
`exitCode = code ?? 1`, `success = exitCode === 0 && !loopDetected`. -/
def closeResult (code : Option Int) (loopDetected : Bool) : PromptResult :=
  let exitCode := code.getD 1
  { success := decide (exitCode = 0) && !loopDetected
    exitCode := exitCode
    loopDetected := loopDetected }

/-- cursor.ts `runPrompt` end to end with respect to the loop detector: the
stream of completed tool-call events is observed, then the process closes
with exit code `code`. -/
def runPromptModel (events : List ToolEvent) (code : Option Int) : PromptResult :=
  let r := runDetector LoopState.init false events
  closeResult code r.2

/-! ## yaml.ts: manifests -/

/-- yaml.ts `TaskGroupEntry`: one row of progress.yml. -/
structure TaskGroupEntry where
  name : String
  completed : Bool
deriving DecidableEq, Repr

/-- yaml.ts `ProgressYml`. -/
structure ProgressYml where
  task_groups : List TaskGroupEntry
deriving DecidableEq, Repr

/-- yaml.ts `FeatureIndexEntry`: one row of features-index.yml. -/
structure FeatureIndexEntry where
  number : String
  name : String
  path : String
  description : String
  completed : Bool
deriving DecidableEq, Repr

/-- yaml.ts `FeaturesIndex.technical_overview`. -/
structure TechnicalOverview where
  shared_patterns : Option (List String)
  key_integration_points : Option (List String)
  reusable_components : Option (List String)
deriving DecidableEq, Repr

/-- yaml.ts `FeaturesIndex`. -/
structure FeaturesIndex where
  epic_name : String
  epic_path : String
  generated : String
  total_features : Nat
  features : List FeatureIndexEntry
  technical_overview : Option TechnicalOverview
  notes : Option String
deriving DecidableEq, Repr

/-- State of one YAML file on disk: absent, present but unparseable, or
present with parsed contents. -/
inductive FileState (α : Type) where
  | absent
  | malformed
  | parsed (a : α)
deriving DecidableEq, Repr

/-- Whether `existsSync` holds for the file. -/
def FileState.onDisk : FileState α → Bool
  | .absent => false
  | _ => true

/-- yaml.ts `parseYamlFile`: `null` when the file is missing
(`!existsSync`) or when `parse` throws; the parsed value otherwise. -/
def parseYamlFile : FileState α → Option α
  | .absent => none
  | .malformed => none
  | .parsed a => some a

/-- Index of the first element satisfying `p` (JS `findIndex` / the indexed
for-loops of epic.ts, as an `Option`). -/
def firstIdxWhere (p : α → Bool) : List α → Option Nat
  | [] => none
  | a :: l => if p a then some 0 else (firstIdxWhere p l).map (· + 1)

/-- yaml.ts `getFirstIncompleteTaskGroup`: `findIndex(tg => !tg.completed)`,
`-1` when every group is complete. -/
def getFirstIncompleteTaskGroup (progress : ProgressYml) : Int :=
  match firstIdxWhere (fun tg => !tg.completed) progress.task_groups with
  | some i => (i : Int)
  | none => -1

/-- yaml.ts `allTaskGroupsComplete`. -/
def allTaskGroupsComplete (progress : ProgressYml) : Bool :=
  progress.task_groups.all (fun tg => tg.completed)

/-- The mutation done by yaml.ts `markTaskGroupComplete` when
`find(tg => tg.name === taskGroupName)` succeeds: `find` returns the first
matching element and only that object is mutated. -/
def setFirstCompleted (taskGroupName : String) : List TaskGroupEntry → List TaskGroupEntry
  | [] => []
  | tg :: rest =>
    if tg.name = taskGroupName then { tg with completed := true } :: rest
    else tg :: setFirstCompleted taskGroupName rest

/-- yaml.ts `markTaskGroupComplete` acting on the progress.yml file for a
feature: returns the boolean result and the file state after any write. -/
def markTaskGroupComplete (file : FileState ProgressYml) (taskGroupName : String) :
    Bool × FileState ProgressYml :=
  match parseYamlFile file with
  | none => (false, file)
  | some progress =>
    if progress.task_groups.any (fun tg => tg.name = taskGroupName) then
      (true, .parsed ⟨setFirstCompleted taskGroupName progress.task_groups⟩)
    else
      (false, file)

/-! ## epic.ts: discovery, validation, progress detection -/

/-- On-disk contents of one feature folder that epic.ts inspects. -/
structure FeatureFolderFS where
  hasPrd : Bool
  hasTasks : Bool
  /-- `prompts/progress.yml` -/
  progressFile : FileState ProgressYml
deriving DecidableEq, Repr

/-- epic.ts `Feature` (the `path` of the source is replaced by the folder's
contents, which is what the path is later used to read). -/
structure Feature where
  folderName : String
  number : String
  name : String
  hasPrd : Bool
  hasTasks : Bool
  hasPrompts : Bool
  contents : FeatureFolderFS
deriving DecidableEq, Repr

/-- An epic directory as epic.ts reads it.  `featuresDir` is `none` when
`features/` does not exist; each entry of the listing is a name plus the
folder contents when the entry is a directory (`none` for plain files). -/
structure EpicDir where
  hasRequirements : Bool
  featuresIndexFile : FileState FeaturesIndex
  featuresDir : Option (List (String × Option FeatureFolderFS))
  hasVerificationGuide : Bool

/-- yaml.ts `readFeaturesIndex`. -/
def readFeaturesIndex (e : EpicDir) : Option FeaturesIndex :=
  parseYamlFile e.featuresIndexFile

/-- yaml.ts `readProgressYml` for a feature folder. -/
def readProgressYml (f : FeatureFolderFS) : Option ProgressYml :=
  parseYamlFile f.progressFile

def strStartsWithAux : List Char → List Char → Bool
  | _, [] => true
  | [], _ :: _ => false
  | c :: cs, d :: ds => if c.toNat = d.toNat then strStartsWithAux cs ds else false

/-- JS `String.prototype.startsWith` over the character data. -/
def strStartsWith (s pre : String) : Bool := strStartsWithAux s.data pre.data

/-- The regex `^(\d\x7b2\x7d)-(.+)$` of `discoverFeaturesFromDirectory`:
two digits, a dash, then a nonempty remainder. -/
def parseFeatureFolderName (s : String) : Option (String × String) :=
  match s.data with
  | c1 :: c2 :: '-' :: rest =>
    if c1.isDigit && c2.isDigit && !rest.isEmpty then
      some (String.mk [c1, c2], String.mk rest)
    else none
  | _ => none

/-- Code-point lexicographic comparison on character lists. -/
def charListLt : List Char → List Char → Bool
  | [], [] => false
  | [], _ :: _ => true
  | _ :: _, [] => false
  | c :: cs, d :: ds =>
    if c.toNat < d.toNat then true
    else if d.toNat < c.toNat then false
    else charListLt cs ds

/-- Comparison `a.localeCompare(b) < 0` for the feature numbers compared by discovery:
on the two-digit ASCII strings accepted by the folder-name regex, locale
order coincides with code-point order. -/
def numberLt (a b : String) : Bool := charListLt a.data b.data

/-- Insert into a list sorted by feature `number` (stable, mirroring
`features.sort((a, b) => a.number.localeCompare(b.number))`). -/
def insertByNumber (f : Feature) : List Feature → List Feature
  | [] => [f]
  | g :: gs => if numberLt g.number f.number then g :: insertByNumber f gs else f :: g :: gs

def sortByNumber : List Feature → List Feature
  | [] => []
  | f :: fs => insertByNumber f (sortByNumber fs)

/-- epic.ts `discoverFeaturesFromDirectory`: keep directory entries not
starting with `.` whose name matches `^(\d\x7b2\x7d)-(.+)$`, record artifact
presence, and sort by number. -/
def discoverFeaturesFromDirectory (e : EpicDir) : List Feature :=
  match e.featuresDir with
  | none => []
  | some entries =>
    let features := entries.filterMap (fun entry =>
      match entry.2 with
      | none => none
      | some folder =>
        if strStartsWith entry.1 "." then none
        else
          match parseFeatureFolderName entry.1 with
          | none => none
          | some nn =>
            some { folderName := entry.1
                   number := nn.1
                   name := nn.2
                   hasPrd := folder.hasPrd
                   hasTasks := folder.hasTasks
                   hasPrompts := folder.progressFile.onDisk
                   contents := folder })
    sortByNumber features

/-- epic.ts `FeatureValidation`. -/
structure FeatureValidation where
  valid : Bool
  errors : List String
  indexFeatures : List FeatureIndexEntry
  directoryFeatures : List Feature

/-- The count-mismatch error string of `validateFeatures`. -/
def countMismatchMsg (ni nd : Nat) : String :=
  "Feature count mismatch: features-index.yml has " ++ toString ni ++
    " features, but directory has " ++ toString nd ++ " folders"

/-- Error for an index entry with no matching folder. -/
def indexMissingMsg (ie : FeatureIndexEntry) : String :=
  "Feature " ++ ie.number ++ "-" ++ ie.name ++
    " in features-index.yml not found in features/ directory"

/-- Error for a folder with no matching index entry. -/
def dirMissingMsg (df : Feature) : String :=
  "Feature folder " ++ df.folderName ++ " not found in features-index.yml"

/-- The error list accumulated by the three checks of `validateFeatures`:
count mismatch, index entries without a folder, folders without an index
entry (in push order). -/
def validationErrors (indexFeatures : List FeatureIndexEntry)
    (directoryFeatures : List Feature) : List String :=
  (if indexFeatures.length ≠ directoryFeatures.length then
    [countMismatchMsg indexFeatures.length directoryFeatures.length]
  else []) ++
  indexFeatures.filterMap (fun ie =>
    if directoryFeatures.any (fun f => f.number = ie.number && f.name = ie.name) then none
    else some (indexMissingMsg ie)) ++
  directoryFeatures.filterMap (fun df =>
    if indexFeatures.any (fun f => f.number = df.number && f.name = df.name) then none
    else some (dirMissingMsg df))

/-- epic.ts `validateFeatures`: cross-validate features-index.yml against the
directory scan, collecting every discrepancy. -/
def validateFeatures (e : EpicDir) : FeatureValidation :=
  let directoryFeatures := discoverFeaturesFromDirectory e
  match readFeaturesIndex e with
  | none =>
    { valid := false, errors := ["features-index.yml not found"],
      indexFeatures := [], directoryFeatures := directoryFeatures }
  | some idx =>
    { valid := (validationErrors idx.features directoryFeatures).isEmpty
      errors := validationErrors idx.features directoryFeatures
      indexFeatures := idx.features
      directoryFeatures := directoryFeatures }

/-- epic.ts `EpicProgress.resumeTaskGroup`. -/
structure ResumeTaskGroup where
  featureIndex : Nat
  taskGroupIndex : Nat
deriving DecidableEq, Repr

/-- epic.ts `EpicProgress`. -/
structure EpicProgress where
  phase : Nat
  resumeFeatureIndex : Option Nat := none
  resumeTaskGroup : Option ResumeTaskGroup := none
  description : String
deriving DecidableEq, Repr

/-- The `folderName` of the i-th discovered feature (used in descriptions). -/
def folderNameAt (fs : List Feature) (i : Nat) : String :=
  ((fs.get? i).map Feature.folderName).getD ""

/-- The phase-6 loop of `detectProgress`: scan features in order, `i` the
absolute index; return phase 5 when progress.yml does not parse, phase 6 at
the first incomplete task group, nothing when all ledgers are complete. -/
def scanImplementation : Nat → List Feature → Option EpicProgress
  | _, [] => none
  | i, f :: fs =>
    match readProgressYml f.contents with
    | none =>
      some { phase := 5, resumeFeatureIndex := some i,
             description := "Starting from Phase 5: Create Task Prompts (resuming at feature " ++
               f.folderName ++ ")" }
    | some progress =>
      let incompleteIndex := getFirstIncompleteTaskGroup progress
      if incompleteIndex ≥ 0 then
        some { phase := 6,
               resumeTaskGroup := some ⟨i, incompleteIndex.toNat⟩,
               description := "Starting from Phase 6: Implementation (resuming at feature " ++
                 f.folderName ++ ", task group " ++
                 ((progress.task_groups.get? incompleteIndex.toNat).map TaskGroupEntry.name).getD "" ++ ")" }
      else
        scanImplementation (i + 1) fs

/-- epic.ts `detectProgress`: the phase decision tree, top to bottom. -/
def detectProgress (e : EpicDir) : Except String EpicProgress :=
  if !e.hasRequirements then
    .error "Epic does not have requirements.md. Run oroboros/prompts/create-epic.md first."
  else
    let featuresIndex := readFeaturesIndex e
    let directoryFeatures := discoverFeaturesFromDirectory e
    if featuresIndex.isNone || directoryFeatures.isEmpty then
      .ok { phase := 3, description := "Starting from Phase 3: Create Features" }
    else
      let validation := validateFeatures e
      if !validation.valid then
        .error ("Feature validation failed:\n" ++ String.intercalate "\n" validation.errors)
      else
        match firstIdxWhere (fun f => !f.hasTasks) directoryFeatures with
        | some i =>
          .ok { phase := 4, resumeFeatureIndex := some i,
                description := "Starting from Phase 4: Create Tasks (resuming at feature " ++
                  folderNameAt directoryFeatures i ++ ")" }
        | none =>
          match firstIdxWhere (fun f => !f.hasPrompts) directoryFeatures with
          | some i =>
            .ok { phase := 5, resumeFeatureIndex := some i,
                  description := "Starting from Phase 5: Create Task Prompts (resuming at feature " ++
                    folderNameAt directoryFeatures i ++ ")" }
          | none =>
            match scanImplementation 0 directoryFeatures with
            | some progress => .ok progress
            | none =>
              if !e.hasVerificationGuide then
                .ok { phase := 7,
                      description := "Starting from Phase 7: Create Verification Guide" }
              else
                .ok { phase := 7, description := "All phases complete" }

/-! ## git.ts and the implement-epic step wrapper

The repository is modelled as a list of committed snapshots (newest first; a
commit hash is identified with the snapshot it points at) plus the current
working-tree snapshot `work`. -/

structure RepoState (α : Type) where
  commits : List α
  work : α
deriving DecidableEq, Repr

/-- git.ts `getLastCommitHash`: hash of `HEAD`, `null` when there is none.
Modelled from the spec: `captureCheckpoint() -> CommitHash`, "a git commit
hash captured immediately before a pipeline step begins" (the function is
imported by implement-epic.ts and exercised by git.test.ts but its body is
not under src/). -/
def getLastCommitHash (s : RepoState α) : Option α :=
  s.commits.head?

/-- git.ts `stageAll` + `hasStagedChanges`: after `git add -A`, staged changes
exist iff the working tree differs from `HEAD` (in a repository with no
commits anything staged counts as a change). -/
def hasStagedChanges (s : RepoState α) [DecidableEq α] : Bool :=
  !(s.commits.head? = some s.work)

/-- git.ts `commitIfChanges`: stage everything; commit only when something is
staged, cleanly doing nothing otherwise. -/
def commitIfChanges [DecidableEq α] (s : RepoState α) : Bool × RepoState α :=
  if hasStagedChanges s then (true, ⟨s.work :: s.commits, s.work⟩)
  else (false, s)

/-- Modelled from the spec: `resetAndClean(checkpoint) -> \x7bresetOk, cleanOk\x7d`
"hard-resets tracked files to the checkpoint *and* removes untracked
files/directories" (imported by implement-epic.ts, exercised by git.test.ts,
body not under src/).  Net effect on the model: the working tree becomes the
checkpoint snapshot and `HEAD` moves to that commit. -/
def resetAndClean [DecidableEq α] (checkpoint : α) (s : RepoState α) :
    RepoState α × Bool :=
  match firstIdxWhere (fun c => c = checkpoint) s.commits with
  | some i => (⟨s.commits.drop i, checkpoint⟩, true)
  | none => (s, false)

/-- Outcome of one pipeline step of implement-epic.ts: normal return of
`runPrompt`, the typed `LoopDetectedError`, or the generic
`Prompt execution failed` error. -/
inductive StepOutcome where
  | success
  | loopDetectedError
  | adapterError
deriving DecidableEq, Repr

/-- What one adapter invocation does: its edit to the working tree, and the
`loopDetected` / `success` flags of the returned `PromptResult`. -/
structure AdapterRun (α : Type) where
  effect : α → α
  loopDetected : Bool
  success : Bool

/-- The `if (config.commitEach && commitHashBefore)` rollback of the
loop-detection branch of `runPrompt`. -/
def loopRollback [DecidableEq α] (commitEach : Bool) (commitHashBefore : Option α)
    (s1 : RepoState α) : RepoState α :=
  match commitEach, commitHashBefore with
  | true, some h => (resetAndClean h s1).1
  | _, _ => s1

def runPromptStep [DecidableEq α] (commitEach : Bool) (run : AdapterRun α)
    (s : RepoState α) : RepoState α × StepOutcome :=
  let commitHashBefore : Option α := if commitEach then getLastCommitHash s else none
  let s1 : RepoState α := ⟨s.commits, run.effect s.work⟩
  if run.loopDetected then
    (loopRollback commitEach commitHashBefore s1, .loopDetectedError)
  else if !run.success then (s1, .adapterError)
  else (s1, .success)

/-- implement-epic.ts `maybeCommit`: skip when `commitEach` is off, otherwise
`commitIfChanges`. -/
def maybeCommit [DecidableEq α] (commitEach : Bool) (s : RepoState α) : RepoState α :=
  if !commitEach then s else (commitIfChanges s).2

/-- One whole pipeline step as the phase drivers execute it: `runPrompt`
followed, on normal return, by `maybeCommit`. -/
def pipelineStep [DecidableEq α] (commitEach : Bool) (run : AdapterRun α)
    (s : RepoState α) : RepoState α × StepOutcome :=
  let r := runPromptStep commitEach run s
  match r.2 with
  | .success => (maybeCommit commitEach r.1, .success)
  | o => (r.1, o)

/-! ## Helper lemmas and model validation -/

/-- RFC 1321 test vector: validates the MD5 embedding. -/
theorem md5Hex_empty : md5Hex (utf8Bytes "") = "d41d8cd98f00b204e9800998ecf8427e" := by
  decide

/-- RFC 1321 test vector: validates the MD5 embedding. -/
theorem md5Hex_abc : md5Hex (utf8Bytes "abc") = "900150983cd24fb0d6963f7d28e17f72" := by
  decide

/-- implement-epic.ts `runPrompt` doc: capture `commitHashBefore` only when
`config.commitEach`; run the adapter; on `result.loopDetected`, reset-and-clean
to the checkpoint only when `commitEach && commitHashBefore` and throw
`LoopDetectedError`; on `!result.success` throw a plain error (no rollback);
otherwise return normally.  `runPromptStep` above is that control flow. -/
theorem runPromptStep_loop_def [DecidableEq α] (commitEach : Bool) (run : AdapterRun α)
    (s : RepoState α) (h : run.loopDetected = true) :
    runPromptStep commitEach run s =
      (loopRollback commitEach (if commitEach then getLastCommitHash s else none)
        ⟨s.commits, run.effect s.work⟩, .loopDetectedError) := by
  simp [runPromptStep, h]

theorem firstIdxWhere_eq_none (p : α → Bool) (l : List α)
    (h : ∀ x ∈ l, p x = false) : firstIdxWhere p l = none := by
  induction l with
  | nil => rfl
  | cons a l ih =>
    simp only [firstIdxWhere, h a (List.mem_cons_self a l), if_false, Bool.false_eq_true,
      ite_false]
    rw [ih (fun x hx => h x (List.mem_cons_of_mem a hx))]
    rfl

theorem firstIdxWhere_eq_some (p : α → Bool) :
    ∀ (l : List α) (k : Nat) (x : α), l.get? k = some x → p x = true →
    (∀ j y, j < k → l.get? j = some y → p y = false) →
    firstIdxWhere p l = some k := by
  intro l
  induction l with
  | nil => intro k x hx _ _; simp at hx
  | cons a l ih =>
    intro k x hx hpx hprior
    cases k with
    | zero =>
      simp only [List.get?_cons_zero, Option.some.injEq] at hx
      subst hx
      simp [firstIdxWhere, hpx]
    | succ k =>
      have hpa : p a = false := hprior 0 a (Nat.succ_pos k) rfl
      simp only [firstIdxWhere, hpa, Bool.false_eq_true, if_false, ite_false]
      rw [ih k x hx hpx (fun j y hj hy => hprior (j + 1) y (Nat.succ_lt_succ hj) hy)]
      rfl

theorem firstIdxWhere_isSome_of_any (p : α → Bool) (l : List α)
    (h : l.any p = true) : (firstIdxWhere p l).isSome = true := by
  induction l with
  | nil => simp at h
  | cons a l ih =>
    by_cases hpa : p a = true
    · simp [firstIdxWhere, hpa]
    · simp only [List.any_cons, Bool.or_eq_true] at h
      have := ih (h.resolve_left hpa)
      simp only [firstIdxWhere, hpa, Bool.false_eq_true, if_false, ite_false]
      cases hfi : firstIdxWhere p l with
      | none => rw [hfi] at this; simp at this
      | some k => simp

/-! ## C8: markTaskGroupComplete never throws, never upserts; parse failures are NotFound -/

/-- C8: `markTaskGroupComplete` returns `false` without writing (and without
inserting an entry) when the ledger file is absent, malformed, or contains no
task group of the given name; and the manifest reads through `parseYamlFile`
(`readFeaturesIndex`, `readProgressYml`) return `none` both for a missing file
and for an unparseable file. -/
theorem C8_markTaskGroupComplete_notFound :
    (∀ name : String, markTaskGroupComplete .absent name = (false, .absent)) ∧
    (∀ name : String, markTaskGroupComplete .malformed name = (false, .malformed)) ∧
    (∀ (p : ProgressYml) (name : String),
      (∀ tg ∈ p.task_groups, tg.name ≠ name) →
      markTaskGroupComplete (.parsed p) name = (false, .parsed p)) ∧
    (∀ e : EpicDir,
      e.featuresIndexFile = .absent ∨ e.featuresIndexFile = .malformed →
      readFeaturesIndex e = none) ∧
    (∀ f : FeatureFolderFS,
      f.progressFile = .absent ∨ f.progressFile = .malformed →
      readProgressYml f = none) := by
  refine ⟨fun _ => rfl, fun _ => rfl, ?_, ?_, ?_⟩
  · intro p name h
    have hany : p.task_groups.any (fun tg => tg.name = name) = false := by
      simp only [List.any_eq_false, decide_eq_true_eq]
      exact h
    simp [markTaskGroupComplete, parseYamlFile, hany]
  · intro e he
    rcases he with he | he <;> simp [readFeaturesIndex, he, parseYamlFile]
  · intro f hf
    rcases hf with hf | hf <;> simp [readProgressYml, hf, parseYamlFile]

/-- Witness for C8 at concrete inputs. -/
theorem C8_markTaskGroupComplete_notFound_witness :
    markTaskGroupComplete (.parsed ⟨[⟨"setup", false⟩]⟩) "deploy" =
      (false, .parsed ⟨[⟨"setup", false⟩]⟩) ∧
    readFeaturesIndex ⟨true, .malformed, none, false⟩ = none ∧
    readProgressYml ⟨true, true, .absent⟩ = none :=
  ⟨C8_markTaskGroupComplete_notFound.2.2.1 ⟨[⟨"setup", false⟩]⟩ "deploy" (by decide),
   C8_markTaskGroupComplete_notFound.2.2.2.1 ⟨true, .malformed, none, false⟩ (Or.inr rfl),
   C8_markTaskGroupComplete_notFound.2.2.2.2 ⟨true, true, .absent⟩ (Or.inl rfl)⟩

/-! ## C9: markTaskGroupComplete is a frame-preserving single-field update -/

theorem setFirstCompleted_map_name (name : String) :
    ∀ l : List TaskGroupEntry,
      (setFirstCompleted name l).map TaskGroupEntry.name = l.map TaskGroupEntry.name := by
  intro l
  induction l with
  | nil => rfl
  | cons tg rest ih =>
    by_cases htg : tg.name = name
    · simp [setFirstCompleted, htg]
    · simp [setFirstCompleted, htg, ih]

theorem setFirstCompleted_spec (name : String) :
    ∀ (l : List TaskGroupEntry) (k : Nat),
      firstIdxWhere (fun tg => tg.name = name) l = some k →
      ∃ tg, l.get? k = some tg ∧
        (setFirstCompleted name l).get? k = some { tg with completed := true } ∧
        ∀ j, j ≠ k → (setFirstCompleted name l).get? j = l.get? j := by
  intro l
  induction l with
  | nil => intro k h; simp [firstIdxWhere] at h
  | cons tg rest ih =>
    intro k h
    by_cases htg : tg.name = name
    · have hk : k = 0 := by
        simp [firstIdxWhere, htg] at h
        omega
      subst hk
      refine ⟨tg, rfl, by simp [setFirstCompleted, htg], ?_⟩
      intro j hj
      cases j with
      | zero => exact absurd rfl hj
      | succ j => simp [setFirstCompleted, htg]
    · simp only [firstIdxWhere, htg, decide_eq_true_eq, if_false, Bool.false_eq_true,
        ite_false, Option.map_eq_some'] at h
      obtain ⟨k', hk', rfl⟩ := h
      obtain ⟨tg', h1, h2, h3⟩ := ih k' hk'
      refine ⟨tg', by simpa using h1, ?_, ?_⟩
      · simp only [setFirstCompleted, htg, if_false, List.get?_cons_succ]
        exact h2
      · intro j hj
        cases j with
        | zero => simp [setFirstCompleted, htg]
        | succ j =>
          simp only [setFirstCompleted, htg, if_false, List.get?_cons_succ]
          exact h3 j (by omega)

/-- C9: for a name present in the ledger, `markTaskGroupComplete` reports
`true` and writes back a ledger in which the first group of that name has
`completed := true` while the count, the order, every name, and every other
group (including its `completed` field) are unchanged. -/
theorem C9_markTaskGroupComplete_frame (p : ProgressYml) (name : String)
    (h : p.task_groups.any (fun tg => tg.name = name) = true) :
    (markTaskGroupComplete (.parsed p) name).1 = true ∧
    (markTaskGroupComplete (.parsed p) name).2 =
      .parsed ⟨setFirstCompleted name p.task_groups⟩ ∧
    (setFirstCompleted name p.task_groups).map TaskGroupEntry.name =
      p.task_groups.map TaskGroupEntry.name ∧
    (setFirstCompleted name p.task_groups).length = p.task_groups.length ∧
    ∃ k tg, firstIdxWhere (fun tg => tg.name = name) p.task_groups = some k ∧
      p.task_groups.get? k = some tg ∧
      (setFirstCompleted name p.task_groups).get? k = some { tg with completed := true } ∧
      ∀ j, j ≠ k → (setFirstCompleted name p.task_groups).get? j = p.task_groups.get? j := by
  have hlen : (setFirstCompleted name p.task_groups).length = p.task_groups.length := by
    have := congrArg List.length (setFirstCompleted_map_name name p.task_groups)
    simpa using this
  have hsome := firstIdxWhere_isSome_of_any (fun tg => tg.name = name) p.task_groups h
  cases hfi : firstIdxWhere (fun tg => tg.name = name) p.task_groups with
  | none => rw [hfi] at hsome; simp at hsome
  | some k =>
    obtain ⟨tg, h1, h2, h3⟩ := setFirstCompleted_spec name p.task_groups k hfi
    refine ⟨?_, ?_, setFirstCompleted_map_name name p.task_groups, hlen, k, tg, rfl, h1, h2, h3⟩
    · simp [markTaskGroupComplete, parseYamlFile, h]
    · simp [markTaskGroupComplete, parseYamlFile, h]

/-- Witness for C9 at a concrete ledger. -/
theorem C9_markTaskGroupComplete_frame_witness :
    (markTaskGroupComplete (.parsed ⟨[⟨"setup", true⟩, ⟨"impl", false⟩, ⟨"test", false⟩]⟩)
      "impl").1 = true ∧
    (markTaskGroupComplete (.parsed ⟨[⟨"setup", true⟩, ⟨"impl", false⟩, ⟨"test", false⟩]⟩)
      "impl").2 =
      .parsed ⟨setFirstCompleted "impl" [⟨"setup", true⟩, ⟨"impl", false⟩, ⟨"test", false⟩]⟩ :=
  let r := C9_markTaskGroupComplete_frame
    ⟨[⟨"setup", true⟩, ⟨"impl", false⟩, ⟨"test", false⟩]⟩ "impl" (by decide)
  ⟨r.1, r.2.1⟩

/-! ## C10: PromptResult success contract -/

/-- C10: for every run of the cursor runtime, the returned result satisfies
`success = (exitCode = 0 and not loopDetected)`; in particular whenever the
loop detector fired during the run the result reports `loopDetected = true`
and `success = false`, even when the observed exit code is `0`. -/
theorem C10_promptResult_success_contract (events : List ToolEvent) (code : Option Int) :
    ((runPromptModel events code).success = true ↔
      (runPromptModel events code).exitCode = 0 ∧
      (runPromptModel events code).loopDetected = false) ∧
    ((runDetector LoopState.init false events).2 = true →
      (runPromptModel events code).loopDetected = true ∧
      (runPromptModel events code).success = false) := by
  constructor
  · simp [runPromptModel, closeResult, Bool.and_eq_true, decide_eq_true_eq,
      Bool.not_eq_true']
  · intro h
    simp [runPromptModel, closeResult, h]

/-- Witness for C10: three identical failing tool calls kill the run; the
result reports `loopDetected` and failure even though the exit code is 0. -/
theorem C10_promptResult_success_contract_witness :
    (runPromptModel
      [⟨"shell", .obj (.cons "cmd" (.str "ls") .nil), .obj (.cons "error" (.str "boom") .nil)⟩,
       ⟨"shell", .obj (.cons "cmd" (.str "ls") .nil), .obj (.cons "error" (.str "boom") .nil)⟩,
       ⟨"shell", .obj (.cons "cmd" (.str "ls") .nil), .obj (.cons "error" (.str "boom") .nil)⟩]
      (some 0)).loopDetected = true ∧
    (runPromptModel
      [⟨"shell", .obj (.cons "cmd" (.str "ls") .nil), .obj (.cons "error" (.str "boom") .nil)⟩,
       ⟨"shell", .obj (.cons "cmd" (.str "ls") .nil), .obj (.cons "error" (.str "boom") .nil)⟩,
       ⟨"shell", .obj (.cons "cmd" (.str "ls") .nil), .obj (.cons "error" (.str "boom") .nil)⟩]
      (some 0)).success = false :=
  (C10_promptResult_success_contract _ (some 0)).2 (by decide)

/-! ## C6: hashToolCall and argument key order -/

/-- The serialization of the object `hashToolCall` hashes, with the `args`
serialization exposed. -/
theorem jsonStringify_toolCall (t : String) (a : Json) :
    jsonStringify (.obj (.cons "toolName" (.str t) (.cons "args" a .nil))) =
      "\x7b" ++ (quoteJsonString "toolName" ++ ":" ++ quoteJsonString t ++ "," ++
        (quoteJsonString "args" ++ ":" ++ jsonStringify a)) ++ "\x7d" := rfl

/-- C6 counterexample: two argument objects with the same key-value pairs
(`path: "a.txt"`, `offset: 1`) in different key orders hash differently:
`hashToolCall` stringifies keys in insertion order and does not sort them. -/
theorem C6_hashToolCall_keyOrder_counterexample :
    JsonFields.lookup "path"
        (.cons "path" (.str "a.txt") (.cons "offset" (.num 1) .nil)) =
      JsonFields.lookup "path"
        (.cons "offset" (.num 1) (.cons "path" (.str "a.txt") .nil)) ∧
    JsonFields.lookup "offset"
        (.cons "path" (.str "a.txt") (.cons "offset" (.num 1) .nil)) =
      JsonFields.lookup "offset"
        (.cons "offset" (.num 1) (.cons "path" (.str "a.txt") .nil)) ∧
    hashToolCall "read" (.obj (.cons "path" (.str "a.txt") (.cons "offset" (.num 1) .nil))) ≠
      hashToolCall "read" (.obj (.cons "offset" (.num 1) (.cons "path" (.str "a.txt") .nil))) := by
  refine ⟨rfl, rfl, ?_⟩
  decide

/-- C6 amended: the hash is a function of the serialized `(toolName, args)`
tuple only — argument objects that serialize identically (in particular, the
same key-value pairs in the same key order) always collide; key order is not
normalized before hashing. -/
theorem C6_hashToolCall_serialization (toolName : String) (a b : Json)
    (h : jsonStringify a = jsonStringify b) :
    hashToolCall toolName a = hashToolCall toolName b := by
  show (md5Hex (utf8Bytes (jsonStringify
      (.obj (.cons "toolName" (.str toolName) (.cons "args" a .nil)))))).take 16 =
    (md5Hex (utf8Bytes (jsonStringify
      (.obj (.cons "toolName" (.str toolName) (.cons "args" b .nil)))))).take 16
  rw [jsonStringify_toolCall, jsonStringify_toolCall, h]

/-- Witness for C6 (amended) at a concrete call. -/
theorem C6_hashToolCall_serialization_witness :
    hashToolCall "read" (.obj (.cons "path" (.str "a.txt") .nil)) =
      hashToolCall "read" (.obj (.cons "path" (.str "a.txt") .nil)) :=
  C6_hashToolCall_serialization "read"
    (.obj (.cons "path" (.str "a.txt") .nil))
    (.obj (.cons "path" (.str "a.txt") .nil)) rfl

/-! ## C3: what the completed-call handler records -/

/-- C3 counterexample: a completed call whose result carries no error leaves
the call-hash window unchanged — the hash is **not** appended for successful
calls (it is only appended, together with the error, for failing ones). -/
theorem C3_success_no_append_counterexample :
    extractErrorFromResult (.obj (.cons "ok" (.str "done") .nil)) = none ∧
    (observeToolResult ⟨["h0"], ["e0"]⟩ "shell" (.obj (.cons "cmd" (.str "ls") .nil))
      (.obj (.cons "ok" (.str "done") .nil))).1.recentCallHashes = ["h0"] ∧
    (observeToolResult ⟨["h0"], ["e0"]⟩ "shell" (.obj (.cons "cmd" (.str "ls") .nil))
      (.obj (.cons "ok" (.str "done") .nil))).1.recentCallHashes ≠
      ["h0", hashToolCall "shell" (.obj (.cons "cmd" (.str "ls") .nil))] ∧
    (observeToolResult ⟨["h0"], ["e0"]⟩ "shell" (.obj (.cons "cmd" (.str "ls") .nil))
      (.obj (.cons "ok" (.str "done") .nil))).1.recentErrors = [] := by
  refine ⟨rfl, rfl, ?_, rfl⟩
  decide

/-- C3 amended: on a failing result the handler appends `hash(toolName, args)`
to the call-hash window and the extracted error to the error window (both
bounded at 10); on a successful (non-error) result it clears the error window
and leaves the call-hash window unchanged — nothing is appended for
successful calls. -/
theorem C3_observe_windows (st : LoopState) (toolName : String) (args result : Json) :
    (errTruthy (extractErrorFromResult result) = true →
      (observeToolResult st toolName args result).1.recentCallHashes =
        pushLimited st.recentCallHashes (hashToolCall toolName args) ∧
      (observeToolResult st toolName args result).1.recentErrors =
        pushLimited st.recentErrors ((extractErrorFromResult result).getD "")) ∧
    (errTruthy (extractErrorFromResult result) = false →
      (observeToolResult st toolName args result).1.recentErrors = [] ∧
      (observeToolResult st toolName args result).1.recentCallHashes =
        st.recentCallHashes) := by
  constructor <;> intro h <;> simp [observeToolResult, h]

/-- Witness for C3 (amended): a failing and a successful completion at
concrete inputs. -/
theorem C3_observe_windows_witness :
    ((observeToolResult ⟨[], []⟩ "shell" (.obj (.cons "cmd" (.str "ls") .nil))
        (.obj (.cons "error" (.str "boom") .nil))).1.recentCallHashes =
      pushLimited [] (hashToolCall "shell" (.obj (.cons "cmd" (.str "ls") .nil)))) ∧
    ((observeToolResult ⟨[], []⟩ "shell" (.obj (.cons "cmd" (.str "ls") .nil))
        (.obj (.cons "ok" (.str "done") .nil))).1.recentErrors = []) :=
  ⟨((C3_observe_windows ⟨[], []⟩ "shell" (.obj (.cons "cmd" (.str "ls") .nil))
      (.obj (.cons "error" (.str "boom") .nil))).1 (by decide)).1,
   ((C3_observe_windows ⟨[], []⟩ "shell" (.obj (.cons "cmd" (.str "ls") .nil))
      (.obj (.cons "ok" (.str "done") .nil))).2 (by decide)).1⟩

/-! ## C4: loop-detector trigger timing -/

/-- C4 counterexample: three consecutive identical calls whose results are
successful (non-error) never trigger abort — the 3rd observation does not
abort, contradicting the claim for arbitrary (non-failing) call streams. -/
theorem C4_trigger_counterexample :
    extractErrorFromResult (.obj (.cons "ok" (.str "done") .nil)) = none ∧
    (runDetector LoopState.init false
      [⟨"shell", .obj (.cons "cmd" (.str "ls") .nil), .obj (.cons "ok" (.str "done") .nil)⟩,
       ⟨"shell", .obj (.cons "cmd" (.str "ls") .nil), .obj (.cons "ok" (.str "done") .nil)⟩,
       ⟨"shell", .obj (.cons "cmd" (.str "ls") .nil), .obj (.cons "ok" (.str "done") .nil)⟩]).2
      = false := by
  exact ⟨rfl, by decide⟩

/-- C4 amended: restricted to *failing* calls (the only ones the detector
records). Three consecutive failing calls with identical `(toolName, args)`
trigger abort on the 3rd observation and not on the 2nd; two identical
failing calls followed by one failing call with a different hash and a
different extracted error do not trigger; and for any state whose windows do
not already have 3 identical trailing entries, one observation aborts exactly
when, after the update, the last 3 entries of the call-hash window or of the
error window are pairwise identical. -/
theorem C4_loop_trigger :
    (∀ (t : String) (a : Json) (e : String) (r : Json),
      extractErrorFromResult r = some e → e ≠ "" →
      (runDetector LoopState.init false [⟨t, a, r⟩, ⟨t, a, r⟩]).2 = false ∧
      (runDetector LoopState.init false [⟨t, a, r⟩, ⟨t, a, r⟩, ⟨t, a, r⟩]).2 = true) ∧
    (∀ (t : String) (a : Json) (e : String) (r : Json)
       (t2 : String) (a2 : Json) (e2 : String) (r2 : Json),
      extractErrorFromResult r = some e → e ≠ "" →
      extractErrorFromResult r2 = some e2 → e2 ≠ "" →
      hashToolCall t a ≠ hashToolCall t2 a2 → e ≠ e2 →
      (runDetector LoopState.init false [⟨t, a, r⟩, ⟨t, a, r⟩, ⟨t2, a2, r2⟩]).2 = false) ∧
    (∀ (st : LoopState) (t : String) (a r : Json),
      hasRepeatedItems st.recentCallHashes LOOP_THRESHOLD = false →
      hasRepeatedItems st.recentErrors LOOP_THRESHOLD = false →
      ((observeToolResult st t a r).2 = true ↔
        hasRepeatedItems (observeToolResult st t a r).1.recentCallHashes LOOP_THRESHOLD = true ∨
        hasRepeatedItems (observeToolResult st t a r).1.recentErrors LOOP_THRESHOLD = true)) := by
  refine ⟨?_, ?_, ?_⟩
  · intro t a e r hr he
    have hie : e.isEmpty = false := by
      cases hq : e.isEmpty with
      | false => rfl
      | true => exact absurd ((String.isEmpty_iff e).mp hq) he
    constructor <;>
      simp [runDetector, observeToolResult, hr, errTruthy, hie, pushLimited,
        hasRepeatedItems, LOOP_THRESHOLD, RECENT_CALLS_LIMIT, LoopState.init]
  · intro t a e r t2 a2 e2 r2 hr he hr2 he2 hhash herr
    have hie : e.isEmpty = false := by
      cases hq : e.isEmpty with
      | false => rfl
      | true => exact absurd ((String.isEmpty_iff e).mp hq) he
    have hie2 : e2.isEmpty = false := by
      cases hq : e2.isEmpty with
      | false => rfl
      | true => exact absurd ((String.isEmpty_iff e2).mp hq) he2
    simp [runDetector, observeToolResult, hr, hr2, errTruthy, hie, hie2, pushLimited,
      hasRepeatedItems, LOOP_THRESHOLD, RECENT_CALLS_LIMIT, LoopState.init,
      Ne.symm hhash, Ne.symm herr]
  · intro st t a r h1 h2
    by_cases herr : errTruthy (extractErrorFromResult r) = true
    · simp [observeToolResult, herr, Bool.or_eq_true]
    · have herr' : errTruthy (extractErrorFromResult r) = false := by
        simpa using herr
      have hempty : hasRepeatedItems [] LOOP_THRESHOLD = false := rfl
      simp [observeToolResult, herr', h1, hempty]

/-- Witness for C4 (amended) at concrete failing calls. -/
theorem C4_loop_trigger_witness :
    (runDetector LoopState.init false
      [⟨"shell", .obj (.cons "cmd" (.str "ls") .nil), .obj (.cons "error" (.str "boom") .nil)⟩,
       ⟨"shell", .obj (.cons "cmd" (.str "ls") .nil), .obj (.cons "error" (.str "boom") .nil)⟩]).2
      = false ∧
    (runDetector LoopState.init false
      [⟨"shell", .obj (.cons "cmd" (.str "ls") .nil), .obj (.cons "error" (.str "boom") .nil)⟩,
       ⟨"shell", .obj (.cons "cmd" (.str "ls") .nil), .obj (.cons "error" (.str "boom") .nil)⟩,
       ⟨"shell", .obj (.cons "cmd" (.str "ls") .nil), .obj (.cons "error" (.str "boom") .nil)⟩]).2
      = true ∧
    (runDetector LoopState.init false
      [⟨"shell", .obj (.cons "cmd" (.str "ls") .nil), .obj (.cons "error" (.str "boom") .nil)⟩,
       ⟨"shell", .obj (.cons "cmd" (.str "ls") .nil), .obj (.cons "error" (.str "boom") .nil)⟩,
       ⟨"shell", .obj (.cons "cmd" (.str "pwd") .nil), .obj (.cons "error" (.str "crash") .nil)⟩]).2
      = false ∧
    ((observeToolResult ⟨[], []⟩ "shell" (.obj (.cons "cmd" (.str "ls") .nil))
        (.obj (.cons "error" (.str "boom") .nil))).2 = true ↔
      hasRepeatedItems (observeToolResult ⟨[], []⟩ "shell"
        (.obj (.cons "cmd" (.str "ls") .nil))
        (.obj (.cons "error" (.str "boom") .nil))).1.recentCallHashes LOOP_THRESHOLD = true ∨
      hasRepeatedItems (observeToolResult ⟨[], []⟩ "shell"
        (.obj (.cons "cmd" (.str "ls") .nil))
        (.obj (.cons "error" (.str "boom") .nil))).1.recentErrors LOOP_THRESHOLD = true) :=
  ⟨(C4_loop_trigger.1 "shell" (.obj (.cons "cmd" (.str "ls") .nil)) "boom"
      (.obj (.cons "error" (.str "boom") .nil)) rfl (by decide)).1,
   (C4_loop_trigger.1 "shell" (.obj (.cons "cmd" (.str "ls") .nil)) "boom"
      (.obj (.cons "error" (.str "boom") .nil)) rfl (by decide)).2,
   C4_loop_trigger.2.1 "shell" (.obj (.cons "cmd" (.str "ls") .nil)) "boom"
      (.obj (.cons "error" (.str "boom") .nil)) "shell" (.obj (.cons "cmd" (.str "pwd") .nil))
      "crash" (.obj (.cons "error" (.str "crash") .nil)) rfl (by decide) rfl (by decide)
      (by decide) (by decide),
   C4_loop_trigger.2.2 ⟨[], []⟩ "shell" (.obj (.cons "cmd" (.str "ls") .nil))
      (.obj (.cons "error" (.str "boom") .nil)) rfl rfl⟩

/-! ## C5: the transactional step wrapper -/

theorem commitIfChanges_spec [DecidableEq α] (s : RepoState α) :
    (commitIfChanges s).2.work = s.work ∧
    (commitIfChanges s).2.commits.head? = some s.work := by
  by_cases h : hasStagedChanges s = true
  · simp [commitIfChanges, h]
  · have h' : s.commits.head? = some s.work := by
      by_contra hne
      exact h (by simp [hasStagedChanges, hne])
    simp [commitIfChanges, h, h']

/-- C5 counterexample: with commit-each enabled, an adapter failure
(non-zero, non-loop exit) leaves the step's partial edit in the working tree,
neither committed nor reverted; and with commit-each disabled, a
loop-detected step is not rolled back either — contradicting the claim that
after *any* step, under *every* configuration, the tree is committed or
byte-for-byte identical to its pre-step state. -/
theorem C5_transactional_counterexample :
    (pipelineStep true (⟨fun n => n + 1, false, false⟩ : AdapterRun Nat) ⟨[0], 0⟩).2 =
      .adapterError ∧
    (pipelineStep true (⟨fun n => n + 1, false, false⟩ : AdapterRun Nat) ⟨[0], 0⟩).1.work ≠ 0 ∧
    (pipelineStep true (⟨fun n => n + 1, false, false⟩ : AdapterRun Nat)
        ⟨[0], 0⟩).1.commits.head? ≠
      some (pipelineStep true (⟨fun n => n + 1, false, false⟩ : AdapterRun Nat) ⟨[0], 0⟩).1.work ∧
    (pipelineStep false (⟨fun n => n + 1, true, false⟩ : AdapterRun Nat) ⟨[0], 0⟩).2 =
      .loopDetectedError ∧
    (pipelineStep false (⟨fun n => n + 1, true, false⟩ : AdapterRun Nat) ⟨[0], 0⟩).1.work ≠ 0 ∧
    (pipelineStep false (⟨fun n => n + 1, true, false⟩ : AdapterRun Nat)
        ⟨[0], 0⟩).1.commits.head? ≠
      some (pipelineStep false (⟨fun n => n + 1, true, false⟩ : AdapterRun Nat) ⟨[0], 0⟩).1.work := by
  refine ⟨rfl, ?_, ?_, rfl, ?_, ?_⟩ <;> decide

/-- C5 amended: when commit-each is enabled and the working tree is clean
(`HEAD` equals the working tree, as the previous step's commit leaves it), a
loop-detected step is reset-and-cleaned back to the checkpoint — the final
state is exactly the pre-step state — and reports the typed
`LoopDetectedError`; a successful step ends committed (`HEAD` equals the
working tree after the adapter's edit); an adapter failure ends with the
partial edit in the tree, uncommitted and not rolled back; and with
commit-each disabled no checkpoint, reset, or commit is performed at all. -/
theorem C5_transactional_step {α : Type} [DecidableEq α] (run : AdapterRun α)
    (s : RepoState α) (hclean : s.commits.head? = some s.work) :
    (run.loopDetected = true → pipelineStep true run s = (s, .loopDetectedError)) ∧
    (run.loopDetected = false → run.success = true →
      (pipelineStep true run s).2 = .success ∧
      (pipelineStep true run s).1.work = run.effect s.work ∧
      (pipelineStep true run s).1.commits.head? =
        some (pipelineStep true run s).1.work) ∧
    (run.loopDetected = false → run.success = false →
      pipelineStep true run s = (⟨s.commits, run.effect s.work⟩, .adapterError)) ∧
    (∀ (run2 : AdapterRun α) (s2 : RepoState α),
      (pipelineStep false run2 s2).1 = ⟨s2.commits, run2.effect s2.work⟩) := by
  obtain ⟨commits, work⟩ := s
  refine ⟨?_, ?_, ?_, ?_⟩
  · intro hloop
    cases commits with
    | nil => simp at hclean
    | cons c rest =>
      have hcw : c = work := by simpa using hclean
      subst hcw
      simp [pipelineStep, runPromptStep, hloop, getLastCommitHash, loopRollback,
        resetAndClean, firstIdxWhere, maybeCommit]
  · intro hl hs
    have hmc := commitIfChanges_spec (⟨commits, run.effect work⟩ : RepoState α)
    have hps : pipelineStep true run ⟨commits, work⟩ =
        ((commitIfChanges (⟨commits, run.effect work⟩ : RepoState α)).2, .success) := by
      simp [pipelineStep, runPromptStep, hl, hs, maybeCommit]
    rw [hps]
    exact ⟨rfl, hmc.1, by rw [hmc.1, hmc.2]⟩
  · intro hl hs
    simp [pipelineStep, runPromptStep, hl, hs]
  · intro run2 s2
    by_cases hl : run2.loopDetected = true
    · simp [pipelineStep, runPromptStep, hl, loopRollback, maybeCommit]
    · have hl' : run2.loopDetected = false := by simpa using hl
      by_cases hs : run2.success = true
      · simp [pipelineStep, runPromptStep, hl', hs, maybeCommit]
      · have hs' : run2.success = false := by simpa using hs
        simp [pipelineStep, runPromptStep, hl', hs', maybeCommit]

/-- Witness for C5 (amended) at concrete repositories over `Nat` snapshots. -/
theorem C5_transactional_step_witness :
    pipelineStep true (⟨fun n => n + 1, true, false⟩ : AdapterRun Nat) ⟨[5], 5⟩ =
      (⟨[5], 5⟩, .loopDetectedError) ∧
    (pipelineStep true (⟨fun n => n + 1, false, true⟩ : AdapterRun Nat) ⟨[5], 5⟩).2 =
      .success ∧
    (pipelineStep true (⟨fun n => n + 1, false, true⟩ : AdapterRun Nat) ⟨[5], 5⟩).1.work = 6 ∧
    pipelineStep true (⟨fun n => n + 1, false, false⟩ : AdapterRun Nat) ⟨[5], 5⟩ =
      (⟨[5], 6⟩, .adapterError) ∧
    (pipelineStep false (⟨fun n => n + 1, true, false⟩ : AdapterRun Nat) ⟨[5], 5⟩).1 =
      ⟨[5], 6⟩ :=
  ⟨(C5_transactional_step (⟨fun n => n + 1, true, false⟩ : AdapterRun Nat) ⟨[5], 5⟩ rfl).1 rfl,
   ((C5_transactional_step (⟨fun n => n + 1, false, true⟩ : AdapterRun Nat) ⟨[5], 5⟩ rfl).2.1
      rfl rfl).1,
   ((C5_transactional_step (⟨fun n => n + 1, false, true⟩ : AdapterRun Nat) ⟨[5], 5⟩ rfl).2.1
      rfl rfl).2.1,
   (C5_transactional_step (⟨fun n => n + 1, false, false⟩ : AdapterRun Nat) ⟨[5], 5⟩ rfl).2.2.1
      rfl rfl,
   (C5_transactional_step (⟨fun n => n + 1, true, false⟩ : AdapterRun Nat) ⟨[5], 5⟩ rfl).2.2.2
      (⟨fun n => n + 1, true, false⟩ : AdapterRun Nat) ⟨[5], 5⟩⟩

/-! ## C7: validation symmetry and completeness -/

theorem isEmpty_eq_false_of_mem {l : List α} {x : α} (h : x ∈ l) : l.isEmpty = false := by
  cases l with
  | nil => simp at h
  | cons a t => rfl

/-- C7: an index entry with no matching folder makes `validateFeatures`
invalid with an error naming that entry; a folder with no matching index
entry likewise yields an error naming that folder; the two error forms can
never coincide; and since every unmatched entry / folder contributes its own
error, all discrepancies appear in the single returned list. -/
theorem C7_validateFeatures_symmetry :
    (∀ (e : EpicDir) (idx : FeaturesIndex) (ie : FeatureIndexEntry),
      readFeaturesIndex e = some idx → ie ∈ idx.features →
      (discoverFeaturesFromDirectory e).all
        (fun f => !(f.number = ie.number && f.name = ie.name)) = true →
      (validateFeatures e).valid = false ∧
      indexMissingMsg ie ∈ (validateFeatures e).errors) ∧
    (∀ (e : EpicDir) (idx : FeaturesIndex) (df : Feature),
      readFeaturesIndex e = some idx → df ∈ discoverFeaturesFromDirectory e →
      idx.features.all (fun ie => !(ie.number = df.number && ie.name = df.name)) = true →
      (validateFeatures e).valid = false ∧
      dirMissingMsg df ∈ (validateFeatures e).errors) ∧
    (∀ (ie : FeatureIndexEntry) (df : Feature), indexMissingMsg ie ≠ dirMissingMsg df) := by
  refine ⟨?_, ?_, ?_⟩
  · intro e idx ie hidx hmem hall
    have hany : (discoverFeaturesFromDirectory e).any
        (fun f => f.number = ie.number && f.name = ie.name) = false := by
      rw [List.any_eq_false]
      intro f hf
      have h := List.all_eq_true.mp hall f hf
      rw [Bool.not_eq_true'] at h
      simp [h]
    have hmsg : indexMissingMsg ie ∈
        validationErrors idx.features (discoverFeaturesFromDirectory e) := by
      unfold validationErrors
      apply List.mem_append_left
      apply List.mem_append_right
      exact List.mem_filterMap.mpr ⟨ie, hmem, by rw [hany]; simp⟩
    constructor
    · simp only [validateFeatures, hidx]
      exact isEmpty_eq_false_of_mem hmsg
    · simp only [validateFeatures, hidx]
      exact hmsg
  · intro e idx df hidx hmem hall
    have hany : idx.features.any
        (fun f => f.number = df.number && f.name = df.name) = false := by
      rw [List.any_eq_false]
      intro f hf
      have h := List.all_eq_true.mp hall f hf
      rw [Bool.not_eq_true'] at h
      simp [h]
    have hmsg : dirMissingMsg df ∈
        validationErrors idx.features (discoverFeaturesFromDirectory e) := by
      unfold validationErrors
      apply List.mem_append_right
      exact List.mem_filterMap.mpr ⟨df, hmem, by rw [hany]; simp⟩
    constructor
    · simp only [validateFeatures, hidx]
      exact isEmpty_eq_false_of_mem hmsg
    · simp only [validateFeatures, hidx]
      exact hmsg
  · intro ie df h
    have h1 : (indexMissingMsg ie).data.getLast? = some 'y' := by
      unfold indexMissingMsg
      simp only [String.data_append]
      rw [List.getLast?_append_of_ne_nil _ (by decide)]
      decide
    have h2 : (dirMissingMsg df).data.getLast? = some 'l' := by
      unfold dirMissingMsg
      simp only [String.data_append]
      rw [List.getLast?_append_of_ne_nil _ (by decide)]
      decide
    rw [h, h2] at h1
    simp at h1

/-- Witness for C7 at a concrete epic: index lists `01-alpha` and `03-gamma`,
directory holds `01-alpha` and `02-beta`. -/
theorem C7_validateFeatures_symmetry_witness :
    (validateFeatures
      ⟨true,
       .parsed ⟨"e", "p", "g", 2,
         [⟨"01", "alpha", "p", "d", false⟩, ⟨"03", "gamma", "p", "d", false⟩], none, none⟩,
       some [("01-alpha", some ⟨false, false, .absent⟩),
             ("02-beta", some ⟨false, false, .absent⟩)],
       false⟩).valid = false ∧
    indexMissingMsg ⟨"03", "gamma", "p", "d", false⟩ ∈
      (validateFeatures
        ⟨true,
         .parsed ⟨"e", "p", "g", 2,
           [⟨"01", "alpha", "p", "d", false⟩, ⟨"03", "gamma", "p", "d", false⟩], none, none⟩,
         some [("01-alpha", some ⟨false, false, .absent⟩),
               ("02-beta", some ⟨false, false, .absent⟩)],
         false⟩).errors ∧
    dirMissingMsg ⟨"02-beta", "02", "beta", false, false, false, ⟨false, false, .absent⟩⟩ ∈
      (validateFeatures
        ⟨true,
         .parsed ⟨"e", "p", "g", 2,
           [⟨"01", "alpha", "p", "d", false⟩, ⟨"03", "gamma", "p", "d", false⟩], none, none⟩,
         some [("01-alpha", some ⟨false, false, .absent⟩),
               ("02-beta", some ⟨false, false, .absent⟩)],
         false⟩).errors ∧
    indexMissingMsg ⟨"03", "gamma", "p", "d", false⟩ ≠
      dirMissingMsg ⟨"02-beta", "02", "beta", false, false, false, ⟨false, false, .absent⟩⟩ :=
  ⟨(C7_validateFeatures_symmetry.1
      ⟨true,
       .parsed ⟨"e", "p", "g", 2,
         [⟨"01", "alpha", "p", "d", false⟩, ⟨"03", "gamma", "p", "d", false⟩], none, none⟩,
       some [("01-alpha", some ⟨false, false, .absent⟩),
             ("02-beta", some ⟨false, false, .absent⟩)],
       false⟩
      ⟨"e", "p", "g", 2,
        [⟨"01", "alpha", "p", "d", false⟩, ⟨"03", "gamma", "p", "d", false⟩], none, none⟩
      ⟨"03", "gamma", "p", "d", false⟩ rfl (by decide) (by decide)).1,
   (C7_validateFeatures_symmetry.1
      ⟨true,
       .parsed ⟨"e", "p", "g", 2,
         [⟨"01", "alpha", "p", "d", false⟩, ⟨"03", "gamma", "p", "d", false⟩], none, none⟩,
       some [("01-alpha", some ⟨false, false, .absent⟩),
             ("02-beta", some ⟨false, false, .absent⟩)],
       false⟩
      ⟨"e", "p", "g", 2,
        [⟨"01", "alpha", "p", "d", false⟩, ⟨"03", "gamma", "p", "d", false⟩], none, none⟩
      ⟨"03", "gamma", "p", "d", false⟩ rfl (by decide) (by decide)).2,
   (C7_validateFeatures_symmetry.2.1
      ⟨true,
       .parsed ⟨"e", "p", "g", 2,
         [⟨"01", "alpha", "p", "d", false⟩, ⟨"03", "gamma", "p", "d", false⟩], none, none⟩,
       some [("01-alpha", some ⟨false, false, .absent⟩),
             ("02-beta", some ⟨false, false, .absent⟩)],
       false⟩
      ⟨"e", "p", "g", 2,
        [⟨"01", "alpha", "p", "d", false⟩, ⟨"03", "gamma", "p", "d", false⟩], none, none⟩
      ⟨"02-beta", "02", "beta", false, false, false, ⟨false, false, .absent⟩⟩ rfl
      (by decide) (by decide)).2,
   C7_validateFeatures_symmetry.2.2
      ⟨"03", "gamma", "p", "d", false⟩
      ⟨"02-beta", "02", "beta", false, false, false, ⟨false, false, .absent⟩⟩⟩

/-! ## detectProgress helper lemmas (phase-6 scan) -/

theorem scanImplementation_phase6 :
    ∀ (i : Nat) (fs : List Feature) (start : Nat) (fi : Feature) (pfi : ProgressYml) (k : Nat),
      fs.get? i = some fi →
      (∀ j fj, j < i → fs.get? j = some fj →
        ∃ pfj, readProgressYml fj.contents = some pfj ∧
          getFirstIncompleteTaskGroup pfj = -1) →
      readProgressYml fi.contents = some pfi →
      getFirstIncompleteTaskGroup pfi = (k : Int) →
      ∃ pr, scanImplementation start fs = some pr ∧ pr.phase = 6 ∧
        pr.resumeTaskGroup = some ⟨start + i, k⟩ := by
  intro i
  induction i with
  | zero =>
    intro fs start fi pfi k hget hprior hread hfirst
    cases fs with
    | nil => simp at hget
    | cons f rest =>
      have hf : f = fi := by simpa using hget
      subst hf
      simp only [scanImplementation, hread, hfirst]
      rw [if_pos (by exact_mod_cast Int.natCast_nonneg k)]
      exact ⟨_, rfl, rfl, by simp⟩
  | succ i ih =>
    intro fs start fi pfi k hget hprior hread hfirst
    cases fs with
    | nil => simp at hget
    | cons f rest =>
      obtain ⟨pf0, hpf0, hc0⟩ := hprior 0 f (Nat.succ_pos i) rfl
      have hstep : scanImplementation start (f :: rest) = scanImplementation (start + 1) rest := by
        simp only [scanImplementation, hpf0, hc0]
        rw [if_neg (by decide : ¬((-1 : Int) ≥ 0))]
      obtain ⟨pr, hpr, hp6, hrtg⟩ := ih rest (start + 1) fi pfi k (by simpa using hget)
        (fun j fj hj hjget => hprior (j + 1) fj (Nat.succ_lt_succ hj) (by simpa using hjget))
        hread hfirst
      have harith : start + 1 + i = start + (i + 1) := by omega
      exact ⟨pr, by rw [hstep]; exact hpr, hp6, by rw [hrtg, harith]⟩

theorem scanImplementation_none :
    ∀ (fs : List Feature) (start : Nat),
      (∀ f ∈ fs, ∃ pf, readProgressYml f.contents = some pf ∧
        getFirstIncompleteTaskGroup pf = -1) →
      scanImplementation start fs = none := by
  intro fs
  induction fs with
  | nil => intro start _; rfl
  | cons f rest ih =>
    intro start h
    obtain ⟨pf, hpf, hc⟩ := h f (List.mem_cons_self f rest)
    simp only [scanImplementation, hpf, hc]
    rw [if_neg (by decide : ¬((-1 : Int) ≥ 0))]
    exact ih (start + 1) (fun g hg => h g (List.mem_cons_of_mem f hg))

theorem detectProgress_phase6 (e : EpicDir) (idx : FeaturesIndex) (fs : List Feature)
    (hreq : e.hasRequirements = true)
    (hidx : readFeaturesIndex e = some idx)
    (hdisc : discoverFeaturesFromDirectory e = fs)
    (hvalid : (validateFeatures e).valid = true)
    (htasks : ∀ f ∈ fs, f.hasTasks = true)
    (hledg : ∀ f ∈ fs, f.hasPrompts = true)
    (i : Nat) (fi : Feature) (pfi : ProgressYml) (k : Nat)
    (hget : fs.get? i = some fi)
    (hprior : ∀ j fj, j < i → fs.get? j = some fj →
      ∃ pfj, readProgressYml fj.contents = some pfj ∧
        getFirstIncompleteTaskGroup pfj = -1)
    (hread : readProgressYml fi.contents = some pfi)
    (hfirst : getFirstIncompleteTaskGroup pfi = (k : Int)) :
    ∃ pr, detectProgress e = .ok pr ∧ pr.phase = 6 ∧
      pr.resumeTaskGroup = some ⟨i, k⟩ := by
  have hne : fs ≠ [] := by
    intro h
    rw [h] at hget
    simp at hget
  have hie : fs.isEmpty = false := by
    cases fs with
    | nil => exact absurd rfl hne
    | cons a t => rfl
  have hfd4 : firstIdxWhere (fun f => !f.hasTasks) fs = none :=
    firstIdxWhere_eq_none _ _ (fun f hf => by simp [htasks f hf])
  have hfd5 : firstIdxWhere (fun f => !f.hasPrompts) fs = none :=
    firstIdxWhere_eq_none _ _ (fun f hf => by simp [hledg f hf])
  obtain ⟨pr, hscan, hp, hr⟩ := scanImplementation_phase6 i fs 0 fi pfi k hget hprior hread hfirst
  refine ⟨pr, ?_, hp, by simpa using hr⟩
  simp only [detectProgress, hreq, hidx, hdisc, hvalid, hie, hfd4, hfd5, hscan,
    Bool.not_true, Bool.false_eq_true, if_false, ite_false, Option.isNone_some,
    Bool.or_self, Bool.or_false, Bool.false_or]

theorem detectProgress_phase7 (e : EpicDir) (idx : FeaturesIndex) (fs : List Feature)
    (hreq : e.hasRequirements = true)
    (hidx : readFeaturesIndex e = some idx)
    (hdisc : discoverFeaturesFromDirectory e = fs)
    (hvalid : (validateFeatures e).valid = true)
    (htasks : ∀ f ∈ fs, f.hasTasks = true)
    (hledg : ∀ f ∈ fs, f.hasPrompts = true)
    (hne : fs ≠ [])
    (hall : ∀ f ∈ fs, ∃ pf, readProgressYml f.contents = some pf ∧
      getFirstIncompleteTaskGroup pf = -1)
    (hver : e.hasVerificationGuide = false) :
    ∃ pr, detectProgress e = .ok pr ∧ pr.phase = 7 := by
  have hie : fs.isEmpty = false := by
    cases fs with
    | nil => exact absurd rfl hne
    | cons a t => rfl
  have hfd4 : firstIdxWhere (fun f => !f.hasTasks) fs = none :=
    firstIdxWhere_eq_none _ _ (fun f hf => by simp [htasks f hf])
  have hfd5 : firstIdxWhere (fun f => !f.hasPrompts) fs = none :=
    firstIdxWhere_eq_none _ _ (fun f hf => by simp [hledg f hf])
  have hscan := scanImplementation_none fs 0 hall
  refine ⟨{ phase := 7,
            description := "Starting from Phase 7: Create Verification Guide" }, ?_, rfl⟩
  simp only [detectProgress, hreq, hidx, hdisc, hvalid, hie, hfd4, hfd5, hscan, hver,
    Bool.not_true, Bool.not_false, Bool.false_eq_true, if_false, ite_false, if_true,
    ite_true, Option.isNone_some, Bool.or_self, Bool.or_false, Bool.false_or]

/-! ## C2: resume correctness -/

theorem getFirstIncomplete_of_prior_complete (p : ProgressYml) (k : Nat) (tgk : TaskGroupEntry)
    (hget : p.task_groups.get? k = some tgk) (hinc : tgk.completed = false)
    (hprior : ∀ j tgj, j < k → p.task_groups.get? j = some tgj → tgj.completed = true) :
    getFirstIncompleteTaskGroup p = (k : Int) := by
  unfold getFirstIncompleteTaskGroup
  rw [firstIdxWhere_eq_some (fun tg => !tg.completed) p.task_groups k tgk hget
    (by simp [hinc]) (fun j y hj hy => by simp [hprior j y hj hy])]

/-- C2: a ledger whose groups `0..k-1` are completed and whose group `k` is
not completed yields `getFirstIncompleteTaskGroup = k`; and when the feature
holding that ledger is the first one with an incomplete group while every
feature has its Tasks artifact and its ledger file, `detectProgress` returns
phase 6 resuming at `taskGroupIndex = k` of that feature. -/
theorem C2_resume_correctness :
    (∀ (p : ProgressYml) (k : Nat) (tgk : TaskGroupEntry),
      p.task_groups.get? k = some tgk → tgk.completed = false →
      (∀ j tgj, j < k → p.task_groups.get? j = some tgj → tgj.completed = true) →
      getFirstIncompleteTaskGroup p = (k : Int)) ∧
    (∀ (e : EpicDir) (idx : FeaturesIndex) (fs : List Feature)
       (i : Nat) (fi : Feature) (pfi : ProgressYml) (k : Nat) (tgk : TaskGroupEntry),
      e.hasRequirements = true →
      readFeaturesIndex e = some idx →
      discoverFeaturesFromDirectory e = fs →
      (validateFeatures e).valid = true →
      (∀ f ∈ fs, f.hasTasks = true) →
      (∀ f ∈ fs, f.hasPrompts = true) →
      fs.get? i = some fi →
      (∀ j fj, j < i → fs.get? j = some fj →
        ∃ pfj, readProgressYml fj.contents = some pfj ∧
          getFirstIncompleteTaskGroup pfj = -1) →
      readProgressYml fi.contents = some pfi →
      pfi.task_groups.get? k = some tgk → tgk.completed = false →
      (∀ j tgj, j < k → pfi.task_groups.get? j = some tgj → tgj.completed = true) →
      ∃ pr, detectProgress e = .ok pr ∧ pr.phase = 6 ∧
        pr.resumeTaskGroup = some ⟨i, k⟩) := by
  refine ⟨getFirstIncomplete_of_prior_complete, ?_⟩
  intro e idx fs i fi pfi k tgk hreq hidx hdisc hvalid htasks hledg hget hprior hread
    hk hinc hkprior
  exact detectProgress_phase6 e idx fs hreq hidx hdisc hvalid htasks hledg i fi pfi k
    hget hprior hread (getFirstIncomplete_of_prior_complete pfi k tgk hk hinc hkprior)

/-- Witness for C2: a 1-feature epic whose ledger is `[a: done, b: pending]`
resumes at task-group index 1. -/
theorem C2_resume_correctness_witness :
    getFirstIncompleteTaskGroup ⟨[⟨"a", true⟩, ⟨"b", false⟩]⟩ = 1 ∧
    ∃ pr, detectProgress
        ⟨true,
         .parsed ⟨"e", "p", "g", 1, [⟨"01", "alpha", "p", "d", false⟩], none, none⟩,
         some [("01-alpha", some ⟨true, true, .parsed ⟨[⟨"a", true⟩, ⟨"b", false⟩]⟩⟩)],
         false⟩ = .ok pr ∧
      pr.phase = 6 ∧ pr.resumeTaskGroup = some ⟨0, 1⟩ := by
  constructor
  · exact C2_resume_correctness.1 ⟨[⟨"a", true⟩, ⟨"b", false⟩]⟩ 1 ⟨"b", false⟩ rfl rfl
      (by
        intro j tgj hj hget
        have hj0 : j = 0 := by omega
        subst hj0
        have : (⟨"a", true⟩ : TaskGroupEntry) = tgj := by simpa using hget
        rw [← this])
  · exact C2_resume_correctness.2
      ⟨true,
       .parsed ⟨"e", "p", "g", 1, [⟨"01", "alpha", "p", "d", false⟩], none, none⟩,
       some [("01-alpha", some ⟨true, true, .parsed ⟨[⟨"a", true⟩, ⟨"b", false⟩]⟩⟩)],
       false⟩
      ⟨"e", "p", "g", 1, [⟨"01", "alpha", "p", "d", false⟩], none, none⟩
      [⟨"01-alpha", "01", "alpha", true, true, true,
        ⟨true, true, .parsed ⟨[⟨"a", true⟩, ⟨"b", false⟩]⟩⟩⟩]
      0
      ⟨"01-alpha", "01", "alpha", true, true, true,
        ⟨true, true, .parsed ⟨[⟨"a", true⟩, ⟨"b", false⟩]⟩⟩⟩
      ⟨[⟨"a", true⟩, ⟨"b", false⟩]⟩ 1 ⟨"b", false⟩
      rfl rfl (by decide) (by decide)
      (by intro f hf; simp only [List.mem_singleton] at hf; rw [hf])
      (by intro f hf; simp only [List.mem_singleton] at hf; rw [hf])
      rfl
      (by intro j fj hj _; omega)
      rfl rfl rfl
      (by
        intro j tgj hj hget
        have hj0 : j = 0 := by omega
        subst hj0
        have : (⟨"a", true⟩ : TaskGroupEntry) = tgj := by simpa using hget
        rw [← this])

/-! ## C1: end-to-end progress-detection scenario -/

/-- C1: in an epic with requirements present, a validating index over exactly
two feature folders, both with Tasks artifacts and ledgers, where feature 1
has two completed task groups and feature 2 one incomplete group, and no
verification artifact, `detectProgress` returns phase 6 resuming at
`featureIndex 1, taskGroupIndex 0`; once that last group is completed and the
verification artifact is still absent it returns phase 7. -/
theorem C1_end_to_end :
    (∀ (e : EpicDir) (idx : FeaturesIndex) (f1 f2 : Feature) (g1 g2 h1 : TaskGroupEntry),
      e.hasRequirements = true →
      readFeaturesIndex e = some idx →
      discoverFeaturesFromDirectory e = [f1, f2] →
      (validateFeatures e).valid = true →
      f1.hasTasks = true → f2.hasTasks = true →
      f1.hasPrompts = true → f2.hasPrompts = true →
      readProgressYml f1.contents = some ⟨[g1, g2]⟩ →
      g1.completed = true → g2.completed = true →
      readProgressYml f2.contents = some ⟨[h1]⟩ →
      h1.completed = false →
      e.hasVerificationGuide = false →
      ∃ pr, detectProgress e = .ok pr ∧ pr.phase = 6 ∧
        pr.resumeTaskGroup = some ⟨1, 0⟩) ∧
    (∀ (e : EpicDir) (idx : FeaturesIndex) (f1 f2 : Feature) (g1 g2 h1 : TaskGroupEntry),
      e.hasRequirements = true →
      readFeaturesIndex e = some idx →
      discoverFeaturesFromDirectory e = [f1, f2] →
      (validateFeatures e).valid = true →
      f1.hasTasks = true → f2.hasTasks = true →
      f1.hasPrompts = true → f2.hasPrompts = true →
      readProgressYml f1.contents = some ⟨[g1, g2]⟩ →
      g1.completed = true → g2.completed = true →
      readProgressYml f2.contents = some ⟨[h1]⟩ →
      h1.completed = true →
      e.hasVerificationGuide = false →
      ∃ pr, detectProgress e = .ok pr ∧ pr.phase = 7) := by
  constructor
  · intro e idx f1 f2 g1 g2 h1 hreq hidx hdisc hvalid ht1 ht2 hp1 hp2 hr1 hg1 hg2
      hr2 hh1 hver
    refine detectProgress_phase6 e idx [f1, f2] hreq hidx hdisc hvalid ?_ ?_ 1 f2
      ⟨[h1]⟩ 0 rfl ?_ hr2 ?_
    · intro f hf
      simp only [List.mem_cons, List.mem_singleton, List.not_mem_nil, or_false] at hf
      rcases hf with hf | hf <;> rw [hf] <;> assumption
    · intro f hf
      simp only [List.mem_cons, List.mem_singleton, List.not_mem_nil, or_false] at hf
      rcases hf with hf | hf <;> rw [hf] <;> assumption
    · intro j fj hj hget
      have hj0 : j = 0 := by omega
      subst hj0
      have hfj : f1 = fj := by simpa using hget
      subst hfj
      exact ⟨⟨[g1, g2]⟩, hr1, by
        simp [getFirstIncompleteTaskGroup, firstIdxWhere, hg1, hg2]⟩
    · simp [getFirstIncompleteTaskGroup, firstIdxWhere, hh1]
  · intro e idx f1 f2 g1 g2 h1 hreq hidx hdisc hvalid ht1 ht2 hp1 hp2 hr1 hg1 hg2
      hr2 hh1 hver
    refine detectProgress_phase7 e idx [f1, f2] hreq hidx hdisc hvalid ?_ ?_
      (by simp) ?_ hver
    · intro f hf
      simp only [List.mem_cons, List.mem_singleton, List.not_mem_nil, or_false] at hf
      rcases hf with hf | hf <;> rw [hf] <;> assumption
    · intro f hf
      simp only [List.mem_cons, List.mem_singleton, List.not_mem_nil, or_false] at hf
      rcases hf with hf | hf <;> rw [hf] <;> assumption
    · intro f hf
      simp only [List.mem_cons, List.mem_singleton, List.not_mem_nil, or_false] at hf
      rcases hf with hf | hf
      · exact ⟨⟨[g1, g2]⟩, by rw [hf]; exact hr1, by
          simp [getFirstIncompleteTaskGroup, firstIdxWhere, hg1, hg2]⟩
      · exact ⟨⟨[h1]⟩, by rw [hf]; exact hr2, by
          simp [getFirstIncompleteTaskGroup, firstIdxWhere, hh1]⟩

/-- Witness for C1 at the concrete two-feature epic of the scenario. -/
theorem C1_end_to_end_witness :
    (∃ pr, detectProgress
        ⟨true,
         .parsed ⟨"e", "p", "g", 2,
           [⟨"01", "alpha", "p", "d", false⟩, ⟨"02", "beta", "p", "d", false⟩], none, none⟩,
         some [("01-alpha", some ⟨true, true, .parsed ⟨[⟨"g1", true⟩, ⟨"g2", true⟩]⟩⟩),
               ("02-beta", some ⟨true, true, .parsed ⟨[⟨"h1", false⟩]⟩⟩)],
         false⟩ = .ok pr ∧
      pr.phase = 6 ∧ pr.resumeTaskGroup = some ⟨1, 0⟩) ∧
    (∃ pr, detectProgress
        ⟨true,
         .parsed ⟨"e", "p", "g", 2,
           [⟨"01", "alpha", "p", "d", false⟩, ⟨"02", "beta", "p", "d", false⟩], none, none⟩,
         some [("01-alpha", some ⟨true, true, .parsed ⟨[⟨"g1", true⟩, ⟨"g2", true⟩]⟩⟩),
               ("02-beta", some ⟨true, true, .parsed ⟨[⟨"h1", true⟩]⟩⟩)],
         false⟩ = .ok pr ∧
      pr.phase = 7) :=
  ⟨C1_end_to_end.1
    ⟨true,
     .parsed ⟨"e", "p", "g", 2,
       [⟨"01", "alpha", "p", "d", false⟩, ⟨"02", "beta", "p", "d", false⟩], none, none⟩,
     some [("01-alpha", some ⟨true, true, .parsed ⟨[⟨"g1", true⟩, ⟨"g2", true⟩]⟩⟩),
           ("02-beta", some ⟨true, true, .parsed ⟨[⟨"h1", false⟩]⟩⟩)],
     false⟩
    ⟨"e", "p", "g", 2,
      [⟨"01", "alpha", "p", "d", false⟩, ⟨"02", "beta", "p", "d", false⟩], none, none⟩
    ⟨"01-alpha", "01", "alpha", true, true, true,
      ⟨true, true, .parsed ⟨[⟨"g1", true⟩, ⟨"g2", true⟩]⟩⟩⟩
    ⟨"02-beta", "02", "beta", true, true, true,
      ⟨true, true, .parsed ⟨[⟨"h1", false⟩]⟩⟩⟩
    ⟨"g1", true⟩ ⟨"g2", true⟩ ⟨"h1", false⟩
    rfl rfl (by decide) (by decide) rfl rfl rfl rfl rfl rfl rfl rfl rfl rfl,
   C1_end_to_end.2
    ⟨true,
     .parsed ⟨"e", "p", "g", 2,
       [⟨"01", "alpha", "p", "d", false⟩, ⟨"02", "beta", "p", "d", false⟩], none, none⟩,
     some [("01-alpha", some ⟨true, true, .parsed ⟨[⟨"g1", true⟩, ⟨"g2", true⟩]⟩⟩),
           ("02-beta", some ⟨true, true, .parsed ⟨[⟨"h1", true⟩]⟩⟩)],
     false⟩
    ⟨"e", "p", "g", 2,
      [⟨"01", "alpha", "p", "d", false⟩, ⟨"02", "beta", "p", "d", false⟩], none, none⟩
    ⟨"01-alpha", "01", "alpha", true, true, true,
      ⟨true, true, .parsed ⟨[⟨"g1", true⟩, ⟨"g2", true⟩]⟩⟩⟩
    ⟨"02-beta", "02", "beta", true, true, true,
      ⟨true, true, .parsed ⟨[⟨"h1", true⟩]⟩⟩⟩
    ⟨"g1", true⟩ ⟨"g2", true⟩ ⟨"h1", true⟩
    rfl rfl (by decide) (by decide) rfl rfl rfl rfl rfl rfl rfl rfl rfl rfl⟩

end Ouroboros
